import Mathlib

/-!
Verification development for the confirmation-file processor
(`src/streamlit_app.py`).

A Python/pandas string is embedded as a `List Char` (named `Str`); a
DataFrame cell is an `Option Str`, `none` standing for a missing value
(NaN).  Column-wise pandas operations become element-wise functions over
these lists, DataFrames become lists of typed rows, and functions that
`raise ValueError` return `Except Str`.  Python whitespace and case
mappings are modelled over ASCII (the only characters the feeds use in
the relevant fields).
-/

/-- A Python string, embedded as its list of characters. -/
abbrev Str := List Char

/-- A DataFrame cell: `none` is a missing value (NaN). -/
abbrev Cell := Option Str

/-- Characters of a Lean string literal, for writing concrete inputs. -/
def txt (s : String) : Str := s.data

/-- ASCII whitespace, the model of what Python `str.strip` removes. -/
def isWs (c : Char) : Bool :=
  c == ' ' || c == '\t' || c == '\n' || c == '\r' || c == '\x0b' || c == '\x0c'

/-- The period character, for `str.rstrip(".")`. -/
def isDot (c : Char) : Bool := c == '.'

/-- ASCII lower-to-upper pairs: the model of `str.upper`. -/
def upPairs : List (Char × Char) :=
  [('a', 'A'), ('b', 'B'), ('c', 'C'), ('d', 'D'), ('e', 'E'), ('f', 'F'),
   ('g', 'G'), ('h', 'H'), ('i', 'I'), ('j', 'J'), ('k', 'K'), ('l', 'L'),
   ('m', 'M'), ('n', 'N'), ('o', 'O'), ('p', 'P'), ('q', 'Q'), ('r', 'R'),
   ('s', 'S'), ('t', 'T'), ('u', 'U'), ('v', 'V'), ('w', 'W'), ('x', 'X'),
   ('y', 'Y'), ('z', 'Z')]

/-- ASCII upper-to-lower pairs: the model of `str.lower`. -/
def loPairs : List (Char × Char) :=
  [('A', 'a'), ('B', 'b'), ('C', 'c'), ('D', 'd'), ('E', 'e'), ('F', 'f'),
   ('G', 'g'), ('H', 'h'), ('I', 'i'), ('J', 'j'), ('K', 'k'), ('L', 'l'),
   ('M', 'm'), ('N', 'n'), ('O', 'o'), ('P', 'p'), ('Q', 'q'), ('R', 'r'),
   ('S', 's'), ('T', 't'), ('U', 'u'), ('V', 'v'), ('W', 'w'), ('X', 'x'),
   ('Y', 'y'), ('Z', 'z')]

/-- Uppercase one character (ASCII model of Python case mapping). -/
def upChar (c : Char) : Char := ((upPairs.lookup c).getD c)

/-- Lowercase one character (ASCII model of Python case mapping). -/
def loChar (c : Char) : Char := ((loPairs.lookup c).getD c)

/-- Model of `str.upper`. -/
def pyUpper (s : Str) : Str := s.map upChar

/-- Model of `str.lower`. -/
def pyLower (s : Str) : Str := s.map loChar

/-- Remove leading characters satisfying `p`, as Python `str.lstrip`. -/
def lstripBy (p : Char → Bool) (s : Str) : Str := s.dropWhile p

/-- Remove trailing characters satisfying `p`, as Python `str.rstrip`. -/
def rstripBy (p : Char → Bool) (s : Str) : Str := (s.reverse.dropWhile p).reverse

/-- Model of `str.strip()` (no argument): drop whitespace at both ends. -/
def pyStrip (s : Str) : Str := rstripBy isWs (lstripBy isWs s)

/-- Whether `pre` is an initial segment of `s`. -/
def empiezaCon : Str → Str → Bool
  | [], _ => true
  | _ :: _, [] => false
  | a :: s, b :: t => a == b && empiezaCon s t

/-- Whether `suf` is a final segment of `s`. -/
def esSufijo (suf s : Str) : Bool := empiezaCon suf.reverse s.reverse

/-- Whether the character `c` occurs in `s`: model of `"c" in s` /
`Series.str.contains` for a one-character, non-regex pattern. -/
def tiene (c : Char) (s : Str) : Bool := s.any (fun d => d == c)

/-- Whether the string `s` is one of the strings in `l`: model of
`Series.isin` over a set of strings. -/
def elemStr (s : Str) (l : List Str) : Bool := l.any (fun t => t == s)

/-- `str.rstrip(".")` of the source: drop trailing periods. -/
def rstripDots (s : Str) : Str := rstripBy isDot s

/-- Model of `Series.str.replace(r"\.0$", "", regex=True)`: `re.sub`
removes one final `.0`, where the anchor also matches just before a single
trailing newline. -/
def stripDotZeroEnd (s : Str) : Str :=
  if esSufijo ['.', '0', '\n'] s then s.dropLast.dropLast.dropLast ++ ['\n']
  else if esSufijo ['.', '0'] s then s.dropLast.dropLast
  else s

/-- `limpiar_folio_series` of the source, element-wise: cast to string
(identity here), `rstrip(".")`, drop a final `.0`, strip whitespace. -/
def limpiar_folio (s : Str) : Str := pyStrip (stripDotZeroEnd (rstripDots s))

/-- The three special issuer RUTs of the `ZV` branch of `transformar_tipo`. -/
def RUTS_ESPECIALES_ZV : List Str :=
  [txt "60503000-9", txt "76516999-2", txt "9297612-2"]

/-- `transformar_tipo` of the source: the document-type classifier.
`str(tipo)` of the final branch is the identity on strings. -/
def transformar_tipo (tipo rut : Str) : Str :=
  if tipo = txt "FÑ" then txt "33"
  else if tipo = txt "FO" then txt "34"
  else if tipo = txt "ZV" then
    (if rut ∈ RUTS_ESPECIALES_ZV then txt "34" else txt "33")
  else tipo

/-- `normalizar_monto` of the source, element-wise: cast to string
(identity), remove every period (`replace(".", "", regex=False)`), turn
each comma into a period, strip whitespace. -/
def normalizar_monto (s : Str) : Str :=
  pyStrip ((s.filter (fun c => !(c == '.'))).map (fun c => if c == ',' then '.' else c))

/-- Numeric value of a digit string (most significant digit first). -/
def natVal (s : Str) : Nat := s.foldl (fun n c => 10 * n + (c.toNat - 48)) 0

/-- Unsigned decimal literal: digits with an optional fractional part.
Model of what `pd.to_numeric` accepts after the sign (scientific notation,
which the feeds never produce, is not modelled). -/
def parseNumSinSigno (s : Str) : Option Rat :=
  let ip := s.takeWhile Char.isDigit
  let rest := s.dropWhile Char.isDigit
  match rest with
  | [] => if ip.isEmpty then none else some ((natVal ip : Nat) : Rat)
  | '.' :: fp =>
    if fp.all Char.isDigit && !(ip.isEmpty && fp.isEmpty) then
      some (((natVal ip : Nat) : Rat) + ((natVal fp : Nat) : Rat) / ((10 : Rat) ^ fp.length))
    else none
  | _ :: _ => none

/-- Model of `pd.to_numeric(errors="coerce")` on one string: an optional
sign followed by a decimal literal; anything else coerces to NaN (`none`). -/
def parseNumero (s : Str) : Option Rat :=
  match s with
  | '-' :: t => (parseNumSinSigno t).map (fun q => -q)
  | '+' :: t => parseNumSinSigno t
  | t => parseNumSinSigno t

/-- The amount column transform of the pipelines:
`pd.to_numeric(normalizar_monto(s), errors="coerce").fillna(0).abs().astype(int)`
on one cell value: unparseable values become `0`, others the integer part
of their absolute value. -/
def monto_a_entero (s : Str) : Int :=
  match parseNumero (normalizar_monto s) with
  | none => 0
  | some q => ⌊|q|⌋

/-- Split a string at every occurrence of `sep`, as Python `str.split`. -/
def splitChar (sep : Char) : Str → List Str
  | [] => [[]]
  | c :: t =>
    let r := splitChar sep t
    if c == sep then [] :: r
    else
      match r with
      | [] => [[c]]
      | h :: rs => (c :: h) :: rs

/-- Digit-only string to a number, `none` otherwise. -/
def soloDigitos (s : Str) : Option Nat :=
  if !s.isEmpty && s.all Char.isDigit then some (natVal s) else none

/-- Model of the date parser behind `pd.to_datetime(errors="coerce")`,
restricted to ISO `YYYY-MM-DD` input (the format the feeds carry); every
other input coerces to missing (NaT). -/
def parseFechaISO (s : Str) : Option (Nat × Nat × Nat) :=
  match splitChar '-' s with
  | [ys, ms, ds] =>
    match soloDigitos ys, soloDigitos ms, soloDigitos ds with
    | some y, some m, some d =>
      if ys.length = 4 ∧ 1 ≤ m ∧ m ≤ 12 ∧ 1 ≤ d ∧ d ≤ 31 then some (y, m, d) else none
    | _, _, _ => none
  | _ => none

/-- Zero-padded two-digit rendering of a day or month number. -/
def pad2 (n : Nat) : Str := if n < 10 then '0' :: Nat.toDigits 10 n else Nat.toDigits 10 n

/-- `formatear_fecha_series` of the source, element-wise:
`pd.to_datetime(errors="coerce").dt.strftime("%d-%m-%Y")`; an unparseable
cell becomes missing, a parsed one `DD-MM-YYYY`. -/
def formatear_fecha : Cell → Cell
  | none => none
  | some s =>
    match parseFechaISO (pyStrip s) with
    | none => none
    | some (y, m, d) => some (pad2 d ++ ['-'] ++ pad2 m ++ ['-'] ++ Nat.toDigits 10 y)

/-- `normalizar_rut` of the source: `""` for a missing value, else strip
surrounding whitespace, remove every period, remove every space character,
uppercase. -/
def normalizar_rut (valor : Cell) : Str :=
  pyUpper (((pyStrip (valor.getD [])).filter (fun c => !(c == '.'))).filter (fun c => !(c == ' ')))

/-- A raw row of the named-column feeds (SAESA / INNOVA), carrying the six
columns of `REQ_COLS_BASE`; `validar_columnas` is absorbed by the type. -/
structure RawRow where
  acreedor : Cell
  claseDocumento : Cell
  referencia : Cell
  importe : Cell
  vencimiento : Cell
  sociedad : Cell
deriving DecidableEq, Repr

/-- A canonical output row: `Sociedad, Rut emisor, Tipo de Documento,
Folio, Monto a pagar, Fecha a pagar`. -/
structure CanRow where
  sociedad : Str
  rutEmisor : Str
  tipoDocumento : Str
  folio : Str
  monto : Int
  fecha : Cell
deriving DecidableEq, Repr

/-- A per-entity output row: a canonical row with `Sociedad` dropped. -/
structure OutRow where
  rutEmisor : Str
  tipoDocumento : Str
  folio : Str
  monto : Int
  fecha : Cell
deriving DecidableEq, Repr

/-- `astype(str)` on one cell: a missing value prints as `"nan"`. -/
def cellStr (c : Cell) : Str :=
  match c with
  | none => txt "nan"
  | some s => s

/-- `SAESA_SOCIEDAD_A_RUT` of the source. -/
def SAESA_SOCIEDAD_A_RUT : List (Str × Str) :=
  [(txt "D", txt "76519747-3"), (txt "E", txt "88272600-2"),
   (txt "F", txt "76073164-1"), (txt "G", txt "77708654-5"),
   (txt "L", txt "96531500-4"), (txt "S", txt "76073162-5"),
   (txt "T", txt "77312201-6")]

/-- `INNOVA_SOCIEDAD_A_RUT` of the source. -/
def INNOVA_SOCIEDAD_A_RUT : List (Str × Str) :=
  [(txt "P", txt "77227565-K")]

/-- `SOCIEDADES_PARAUCO` of the source: the allow-list of entity names. -/
def SOCIEDADES_PARAUCO : List Str :=
  [txt "Arauco Centros Comerciales Regionales SPA",
   txt "Arauco Chillán SPA",
   txt "Arauco Malls Chile S.A.",
   txt "Bulevar Rentas Inmobiliarias S.A.",
   txt "Centros Comerciales Vecinales Arauco Express S.A.",
   txt "Desarrollos Inmobiliarios San Antonio S.A.",
   txt "Inmob. Paseo Estacion",
   txt "Inversiones Arauco Spa.",
   txt "Parque Angamos SPA",
   txt "Parque Arauco S.A.",
   txt "Plaza Estación S.A.",
   txt "Todo Arauco S.A."]

/-- Error text of the empty-reference checkpoint. -/
def MSG_REF_INVALIDA : Str :=
  txt "No hay filas válidas: todas las filas tienen 'Referencia' vacía o inválida."

/-- Error text of the hyphen-filter checkpoint. -/
def MSG_REF_GUION : Str :=
  txt "No hay filas válidas después de filtrar referencias con '-'."

/-- Error text of the final empty-output checkpoint of the named pipeline. -/
def MSG_SALIDA_VACIA : Str :=
  txt "No se generó salida: quedó vacío tras filtros/limpieza."

/-- Error text of the SAESA entity-mapping checkpoint. -/
def MSG_SAESA_VACIA : Str :=
  txt "SAESA: no quedaron filas válidas luego de aplicar el mapping de sociedades."

/-- Error text of the INNOVA entity-mapping checkpoint. -/
def MSG_INNOVA_VACIA : Str :=
  txt "INNOVA: no quedaron filas válidas (solo se acepta Sociedad='P')."

/-- Error text of the Parauco column-count check. -/
def MSG_PARAUCO_COLS : Str :=
  txt "El archivo no tiene suficientes columnas (se espera al menos hasta la columna L)."

/-- Error text of the Parauco allow-list filter. -/
def MSG_PARAUCO_SIN_SOC : Str :=
  txt "No se encontraron filas con sociedades Parauco válidas en la columna L."

/-- Error text of the final empty-output checkpoint of the Parauco pipeline. -/
def MSG_PARAUCO_VACIA : Str :=
  txt "Parauco: quedó vacío tras limpieza/filtros."

/-- Error text of the per-entity assembler when no group is produced. -/
def MSG_SIN_GRUPOS : Str :=
  txt "No se generaron archivos por sociedad: no hay grupos con filas válidas."

/-- `mask_ref_valida` of the source: the reference cell is present, not
blank after trimming, and not the literal string `nan` case-insensitively. -/
def mask_ref_valida (r : RawRow) : Bool :=
  r.referencia.isSome
    && !(pyStrip (cellStr r.referencia)).isEmpty
    && !(pyLower (pyStrip (cellStr r.referencia)) == txt "nan")

/-- The hyphen filter: keep rows whose reference has no `-`. -/
def refSinGuion (r : RawRow) : Bool := !(tiene '-' (cellStr r.referencia))

/-- Apply `limpiar_folio` to the reference cell of a row. -/
def limpiaRefFila (r : RawRow) : RawRow :=
  { r with referencia := some (limpiar_folio (cellStr r.referencia)) }

/-- The column rename plus the row-wise transforms of the named pipeline:
document-type classification, amount normalization, date formatting. -/
def filaACanonica (r : RawRow) : CanRow :=
  { sociedad := cellStr r.sociedad
    rutEmisor := cellStr r.acreedor
    tipoDocumento := transformar_tipo (cellStr r.claseDocumento) (cellStr r.acreedor)
    folio := cellStr r.referencia
    monto := monto_a_entero (cellStr r.importe)
    fecha := formatear_fecha r.vencimiento }

/-- The final row filter of the named pipeline: non-blank issuer and folio. -/
def filaSalidaValida (c : CanRow) : Bool :=
  !(pyStrip c.rutEmisor).isEmpty && !(pyStrip c.folio).isEmpty

/-- `construir_base_saesa_like_sin_mapping` of the source: filter invalid
references, fail if empty; drop hyphenated references and clean the rest,
fail if empty; rename/transform; drop rows with blank issuer or folio,
fail if empty. -/
def construir_base_saesa_like_sin_mapping (df : List RawRow) : Except Str (List CanRow) :=
  if (df.filter mask_ref_valida).isEmpty then .error MSG_REF_INVALIDA
  else if ((((df.filter mask_ref_valida).filter refSinGuion)).map limpiaRefFila).isEmpty then
    .error MSG_REF_GUION
  else if ((((((df.filter mask_ref_valida).filter refSinGuion)).map limpiaRefFila).map
      filaACanonica).filter filaSalidaValida).isEmpty then .error MSG_SALIDA_VACIA
  else .ok ((((((df.filter mask_ref_valida).filter refSinGuion)).map limpiaRefFila).map
      filaACanonica).filter filaSalidaValida)

/-- The entity-code resolution step shared by SAESA and INNOVA: strip and
uppercase the `Sociedad` value, look it up in the feed's table (`Series.map`
over a dict leaves NaN on a miss, and `notna` drops those rows), then
normalize the mapped RUT. -/
def mapeaSociedad (tabla : List (Str × Str)) (c : CanRow) : Option CanRow :=
  match tabla.lookup (pyUpper (pyStrip c.sociedad)) with
  | none => none
  | some rut => some { c with sociedad := normalizar_rut (some rut) }

/-- `construir_base_saesa` of the source. -/
def construir_base_saesa (df : List RawRow) : Except Str (List CanRow) :=
  match construir_base_saesa_like_sin_mapping df with
  | .error e => .error e
  | .ok base =>
    if (base.filterMap (mapeaSociedad SAESA_SOCIEDAD_A_RUT)).isEmpty then .error MSG_SAESA_VACIA
    else .ok (base.filterMap (mapeaSociedad SAESA_SOCIEDAD_A_RUT))

/-- The INNOVA pre-processing of the reference column:
`astype(str).str.split(".").str[0]`, the prefix before the first period. -/
def preInnovaRef (r : RawRow) : RawRow :=
  { r with referencia := some ((cellStr r.referencia).takeWhile (fun c => !(c == '.'))) }

/-- `construir_base_innova` of the source (the presence check of the
`Referencia` column is absorbed by the row type). -/
def construir_base_innova (df : List RawRow) : Except Str (List CanRow) :=
  match construir_base_saesa_like_sin_mapping (df.map preInnovaRef) with
  | .error e => .error e
  | .ok base =>
    if (base.filterMap (mapeaSociedad INNOVA_SOCIEDAD_A_RUT)).isEmpty then .error MSG_INNOVA_VACIA
    else .ok (base.filterMap (mapeaSociedad INNOVA_SOCIEDAD_A_RUT))

/-- Cell of a positional row at column index `i` (`df.iloc[:, i]`). -/
def getCell (r : List Cell) (i : Nat) : Cell := r.getD i none

/-- The Parauco allow-list filter on column L (index 11). -/
def filaParaucoValida (r : List Cell) : Bool :=
  elemStr (pyStrip (cellStr (getCell r 11))) SOCIEDADES_PARAUCO

/-- The Parauco field extraction: amount from index 2, folio from index 3,
due date from index 4, issuer from index 6, output entity from index 10,
document type the literal `33`. -/
def filaParaucoACanonica (r : List Cell) : CanRow :=
  { sociedad := normalizar_rut (getCell r 10)
    rutEmisor := pyStrip (cellStr (getCell r 6))
    tipoDocumento := txt "33"
    folio := limpiar_folio (cellStr (getCell r 3))
    monto := monto_a_entero (cellStr (getCell r 2))
    fecha := formatear_fecha (getCell r 4) }

/-- The final row filter of the Parauco pipeline: non-blank entity, issuer
and folio. -/
def filaParaucoSalidaValida (c : CanRow) : Bool :=
  !(pyStrip c.sociedad).isEmpty && !(pyStrip c.rutEmisor).isEmpty && !(pyStrip c.folio).isEmpty

/-- `construir_base_parauco` of the source: `ncols` is `df.shape[1]`,
`rows` the data rows of the positional table. -/
def construir_base_parauco (ncols : Nat) (rows : List (List Cell)) : Except Str (List CanRow) :=
  if ncols ≤ 11 then .error MSG_PARAUCO_COLS
  else if (rows.filter filaParaucoValida).isEmpty then .error MSG_PARAUCO_SIN_SOC
  else if (((rows.filter filaParaucoValida).map filaParaucoACanonica).filter
      filaParaucoSalidaValida).isEmpty then .error MSG_PARAUCO_VACIA
  else .ok (((rows.filter filaParaucoValida).map filaParaucoACanonica).filter
      filaParaucoSalidaValida)

/-- Drop the `Sociedad` field of a canonical row, keeping the five output
columns in their order. -/
def quitarSociedad (c : CanRow) : OutRow :=
  { rutEmisor := c.rutEmisor, tipoDocumento := c.tipoDocumento,
    folio := c.folio, monto := c.monto, fecha := c.fecha }

/-- Lexicographic comparison of strings, the order `groupby(sort=True)`
sorts group keys by. -/
def strLt : Str → Str → Bool
  | [], [] => false
  | [], _ :: _ => true
  | _ :: _, [] => false
  | a :: s, b :: t => if a < b then true else if b < a then false else strLt s t

/-- Insert into a sorted list of strings. -/
def insertaOrdenado (x : Str) : List Str → List Str
  | [] => [x]
  | y :: t => if strLt x y then x :: y :: t else y :: insertaOrdenado x t

/-- Insertion sort of strings. -/
def ordenaStrs (l : List Str) : List Str := l.foldr insertaOrdenado []

/-- Distinct elements of a list of strings (order irrelevant: the result is
sorted afterwards). -/
def distintos : List Str → List Str
  | [] => []
  | x :: t => if x ∈ t then distintos t else x :: distintos t

/-- The distinct `Sociedad` values of the canonical table, in the sorted
order `groupby(sort=True)` iterates group keys. -/
def clavesSociedad (base : List CanRow) : List Str :=
  ordenaStrs (distintos (base.map (fun c => c.sociedad)))

/-- The per-entity groups: for each key, the rows carrying it in input
order, with the `Sociedad` column dropped; an empty selection yields no
group (the `if not sub.empty` guard of the source). -/
def gruposSociedad (base : List CanRow) : List (Str × List OutRow) :=
  (clavesSociedad base).filterMap (fun k =>
    if (base.filter (fun c => c.sociedad == k)).isEmpty then none
    else some (k, (base.filter (fun c => c.sociedad == k)).map quitarSociedad))

/-- `base_a_dict_por_sociedad` of the source: group the canonical rows by
`Sociedad`, skip empty groups, and fail when no group at all is produced. -/
def base_a_dict_por_sociedad (base : List CanRow) : Except Str (List (Str × List OutRow)) :=
  if (gruposSociedad base).isEmpty then .error MSG_SIN_GRUPOS
  else .ok (gruposSociedad base)

/-- Example SAESA row (the end-to-end row of the spec): entity letter `D`,
document type `ZV` with a non-special issuer, folio with a `.0` artifact,
amount with thousands separators. -/
def filaSaesaD : RawRow :=
  { acreedor := some (txt "76.939.541-5"), claseDocumento := some (txt "ZV"),
    referencia := some (txt "123456.0"), importe := some (txt "1.234.567"),
    vencimiento := some (txt "2024-03-15"), sociedad := some (txt "D") }

/-- Example row whose entity letter `X` is absent from the SAESA table. -/
def filaSaesaX : RawRow := { filaSaesaD with sociedad := some (txt "X") }

/-- Example row with a hyphenated reference. -/
def filaRefGuion : RawRow := { filaSaesaD with referencia := some (txt "123-456") }

/-- Example row with a missing reference. -/
def filaRefNan : RawRow := { filaSaesaD with referencia := none }

/-- Example INNOVA row: entity letter `p`, reference with a decimal tail. -/
def filaInnovaP : RawRow :=
  { filaSaesaD with sociedad := some (txt "p"), referencia := some (txt "55.0") }

/-- The canonical row the base pipeline produces from `filaSaesaD`. -/
def filaBaseD : CanRow :=
  { sociedad := txt "D", rutEmisor := txt "76.939.541-5", tipoDocumento := txt "33",
    folio := txt "123456", monto := 1234567, fecha := some (txt "15-03-2024") }

/-- `filaBaseD` after the SAESA entity mapping `D -> 76519747-3`. -/
def filaSaesaDSalida : CanRow := { filaBaseD with sociedad := txt "76519747-3" }

/-- The canonical row `construir_base_innova` produces from `filaInnovaP`. -/
def filaInnovaPSalida : CanRow :=
  { filaBaseD with sociedad := txt "77227565-K", folio := txt "55" }

/-- The base-pipeline image of `filaSaesaX` (entity letter kept, uppercased
only by the later mapping step). -/
def filaBaseX : CanRow := { filaBaseD with sociedad := txt "X" }

/-- Example positional Parauco row with twelve columns. -/
def filaParaucoEj : List Cell :=
  [none, none, some (txt "1.500"), some (txt "777.0"), some (txt "2024-03-15"), none,
   some (txt "11111111-1"), none, none, none, some (txt "76.939.541-5"),
   some (txt "Parque Arauco S.A.")]

/-- The canonical row `construir_base_parauco` produces from `filaParaucoEj`. -/
def salidaParaucoEj : CanRow :=
  { sociedad := txt "76939541-5", rutEmisor := txt "11111111-1", tipoDocumento := txt "33",
    folio := txt "777", monto := 1500, fecha := some (txt "15-03-2024") }

/-- Canonical rows with entities A, A, B, for the per-entity assembly example. -/
def ejA1 : CanRow :=
  { sociedad := txt "A", rutEmisor := txt "r1", tipoDocumento := txt "33",
    folio := txt "1", monto := 1, fecha := none }

/-- Second row of entity A. -/
def ejA2 : CanRow := { ejA1 with folio := txt "2" }

/-- Row of entity B. -/
def ejB : CanRow := { ejA1 with sociedad := txt "B", folio := txt "3" }

/-- Decidable equality of pipeline results, for evaluating concrete runs. -/
instance {α β : Type} [DecidableEq α] [DecidableEq β] : DecidableEq (Except α β)
  | .error x, .error y =>
    if h : x = y then .isTrue (congrArg Except.error h)
    else .isFalse (fun hc => h (by injection hc))
  | .error _, .ok _ => .isFalse (fun hc => Except.noConfusion hc)
  | .ok _, .error _ => .isFalse (fun hc => Except.noConfusion hc)
  | .ok x, .ok y =>
    if h : x = y then .isTrue (congrArg Except.ok h)
    else .isFalse (fun hc => h (by injection hc))

/-- Dropping a prefix by `p` twice is the same as dropping it once. -/
theorem dropWhile_idem (p : Char → Bool) (l : Str) :
    (l.dropWhile p).dropWhile p = l.dropWhile p := by
  induction l with
  | nil => rfl
  | cons a t ih =>
    by_cases h : p a = true
    · simp [List.dropWhile_cons, h, ih]
    · simp [List.dropWhile_cons, h]

/-- The head surviving `dropWhile` fails the predicate. -/
theorem dropWhile_cons_false (p : Char → Bool) (l : Str) (a : Char) (r : Str)
    (h : l.dropWhile p = a :: r) : p a = false := by
  induction l with
  | nil => simp at h
  | cons b t ih =>
    by_cases hb : p b = true
    · rw [List.dropWhile_cons, if_pos hb] at h
      exact ih h
    · rw [List.dropWhile_cons, if_neg hb] at h
      injection h with h1 _
      subst h1
      cases hv : p b with
      | false => rfl
      | true => exact absurd hv hb

/-- `dropWhile` removes an initial segment. -/
theorem dropWhile_exists_app (p : Char → Bool) (l : Str) : ∃ t, t ++ l.dropWhile p = l := by
  induction l with
  | nil => exact ⟨[], rfl⟩
  | cons a t ih =>
    by_cases h : p a = true
    · obtain ⟨u, hu⟩ := ih
      exact ⟨a :: u, by simp [List.dropWhile_cons, h, hu]⟩
    · exact ⟨[], by simp [List.dropWhile_cons, h]⟩

/-- `dropWhile` keeps only characters of the input. -/
theorem mem_dropWhile (p : Char → Bool) (l : Str) (c : Char) (h : c ∈ l.dropWhile p) :
    c ∈ l := by
  obtain ⟨t, ht⟩ := dropWhile_exists_app p l
  rw [← ht]
  exact List.mem_append.mpr (Or.inr h)

/-- `rstripBy` keeps only characters of the input. -/
theorem mem_rstripBy (p : Char → Bool) (s : Str) (c : Char) (h : c ∈ rstripBy p s) :
    c ∈ s := by
  rw [rstripBy, List.mem_reverse] at h
  exact List.mem_reverse.mp (mem_dropWhile p s.reverse c h)

/-- `pyStrip` keeps only characters of the input. -/
theorem mem_pyStrip (s : Str) (c : Char) (h : c ∈ pyStrip s) : c ∈ s :=
  mem_dropWhile isWs s c (mem_rstripBy isWs (lstripBy isWs s) c h)

/-- A verified initial-segment test yields a decomposition. -/
theorem empiezaCon_exists (pre s : Str) (h : empiezaCon pre s = true) : ∃ t, s = pre ++ t := by
  induction pre generalizing s with
  | nil => exact ⟨s, rfl⟩
  | cons a p ih =>
    cases s with
    | nil => simp [empiezaCon] at h
    | cons b t =>
      rw [empiezaCon, Bool.and_eq_true] at h
      obtain ⟨h1, h2⟩ := h
      have hab : a = b := beq_iff_eq.mp h1
      subst hab
      obtain ⟨u, hu⟩ := ih t h2
      exact ⟨u, by rw [hu]; rfl⟩

/-- A verified final-segment test yields a decomposition. -/
theorem esSufijo_exists (suf s : Str) (h : esSufijo suf s = true) : ∃ t, s = t ++ suf := by
  obtain ⟨u, hu⟩ := empiezaCon_exists suf.reverse s.reverse h
  refine ⟨u.reverse, ?_⟩
  have h2 : s.reverse.reverse = (suf.reverse ++ u).reverse := by rw [hu]
  simpa [List.reverse_append] using h2

/-- A string starts with itself. -/
theorem empiezaCon_self_app (a t : Str) : empiezaCon a (a ++ t) = true := by
  induction a with
  | nil => rfl
  | cons c r ih => simp [empiezaCon, ih]

/-- A string ends with its appended suffix. -/
theorem esSufijo_app (y suf : Str) : esSufijo suf (y ++ suf) = true := by
  rw [esSufijo, List.reverse_append]
  exact empiezaCon_self_app suf.reverse y.reverse

/-- An initial-segment test fails when the first characters differ. -/
theorem empiezaCon_cons_false (a b : Char) (s t : Str) (h : (a == b) = false) :
    empiezaCon (a :: s) (b :: t) = false := by
  simp [empiezaCon]
  intro hc
  rw [hc] at h
  simp at h

/-- Dropping over a replicated block that satisfies the predicate. -/
theorem dropWhile_replicate_app (p : Char → Bool) (c : Char) (hc : p c = true) (k : Nat)
    (l : Str) : (List.replicate k c ++ l).dropWhile p = l.dropWhile p := by
  induction k with
  | zero => rfl
  | succ n ih => simp [List.replicate_succ, List.dropWhile_cons, hc, ih]

/-- `rstrip(".")` removes exactly the trailing periods behind a `.0` tail. -/
theorem rstripDots_dotzero_rep (y : Str) (k : Nat) :
    rstripDots (y ++ ['.', '0'] ++ List.replicate k '.') = y ++ ['.', '0'] := by
  rw [rstripDots, rstripBy]
  have h1 : (y ++ ['.', '0'] ++ List.replicate k '.').reverse
      = List.replicate k '.' ++ ('0' :: '.' :: y.reverse) := by
    simp [List.reverse_append]
  rw [h1, dropWhile_replicate_app isDot '.' (by decide), List.dropWhile_cons,
    if_neg (by decide)]
  simp

/-- The `.0`-removal step on a string that ends in exactly one `.0`. -/
theorem stripDotZeroEnd_app_dotzero (y : Str) :
    stripDotZeroEnd (y ++ ['.', '0']) = y := by
  have hrev : (y ++ ['.', '0']).reverse = '0' :: '.' :: y.reverse := by simp
  have h1 : esSufijo ['.', '0', '\n'] (y ++ ['.', '0']) = false := by
    rw [esSufijo, hrev]
    exact empiezaCon_cons_false '\n' '0' _ _ (by decide)
  have h2 : esSufijo ['.', '0'] (y ++ ['.', '0']) = true := esSufijo_app y ['.', '0']
  rw [stripDotZeroEnd, if_neg (by simp [h1]), if_pos h2]
  have h3 : y ++ ['.', '0'] = (y ++ ['.']) ++ ['0'] := by simp
  rw [h3, List.dropLast_concat, List.dropLast_concat]

/-- The last character kept by `pyStrip` is not whitespace. -/
theorem pyStrip_no_ws_tail (z : Str) (b : Char) (t : Str)
    (h : (pyStrip z).reverse = b :: t) : isWs b = false := by
  rw [pyStrip, rstripBy, List.reverse_reverse] at h
  exact dropWhile_cons_false isWs _ b t h

/-- The first character kept by `pyStrip` is not whitespace. -/
theorem pyStrip_head_no_ws (z : Str) (b : Char) (t : Str) (h : pyStrip z = b :: t) :
    isWs b = false := by
  obtain ⟨u, hu⟩ := dropWhile_exists_app isWs (lstripBy isWs z).reverse
  have hw : lstripBy isWs z = pyStrip z ++ u.reverse := by
    have h2 := congrArg List.reverse hu
    simpa [pyStrip, rstripBy, List.reverse_append] using h2.symm
  rw [h] at hw
  exact dropWhile_cons_false isWs z b (t ++ u.reverse) (by simpa using hw)

/-- Stripping whitespace twice is stripping once. -/
theorem pyStrip_idem (z : Str) : pyStrip (pyStrip z) = pyStrip z := by
  have h1 : lstripBy isWs (pyStrip z) = pyStrip z := by
    cases h : pyStrip z with
    | nil => rfl
    | cons b t =>
      have hb := pyStrip_head_no_ws z b t h
      simp [lstripBy, List.dropWhile_cons, hb]
  have h2 : rstripBy isWs (pyStrip z) = pyStrip z := by
    show ((pyStrip z).reverse.dropWhile isWs).reverse = pyStrip z
    have h3 : (pyStrip z).reverse = (lstripBy isWs z).reverse.dropWhile isWs := by
      simp [pyStrip, rstripBy]
    rw [h3, dropWhile_idem]
    rfl
  show rstripBy isWs (lstripBy isWs (pyStrip z)) = pyStrip z
  rw [h1, h2]

/-- A stripped string that ends neither in `.` nor in `.0` is a fixed point
of the folio cleanup. -/
theorem limpiar_pyStrip_fix (z : Str)
    (h1 : esSufijo ['.'] (pyStrip z) = false)
    (h2 : esSufijo ['.', '0'] (pyStrip z) = false) :
    limpiar_folio (pyStrip z) = pyStrip z := by
  have hA : rstripDots (pyStrip z) = (pyStrip z) := by
    cases hr : (pyStrip z).reverse with
    | nil =>
      have hz : pyStrip z = [] := List.reverse_eq_nil_iff.mp hr
      rw [hz]
      rfl
    | cons b t =>
      have hb : (('.' : Char) == b) = false := by
        have h1b := h1
        rw [esSufijo, hr] at h1b
        simpa [empiezaCon] using h1b
      have hbd : isDot b = false := by
        rw [isDot, beq_eq_false_iff_ne]
        exact fun hc => (beq_eq_false_iff_ne.mp hb) hc.symm
      show ((pyStrip z).reverse.dropWhile isDot).reverse = pyStrip z
      rw [hr, List.dropWhile_cons, if_neg (by simp [hbd]), ← hr, List.reverse_reverse]
  have hn : esSufijo ['.', '0', '\n'] (pyStrip z) = false := by
    cases hval : esSufijo ['.', '0', '\n'] (pyStrip z) with
    | false => rfl
    | true =>
      exfalso
      obtain ⟨t, ht⟩ := esSufijo_exists _ _ hval
      have hrev : (pyStrip z).reverse = '\n' :: ('0' :: '.' :: t.reverse) := by
        rw [ht]; simp
      have hws := pyStrip_no_ws_tail z '\n' ('0' :: '.' :: t.reverse) hrev
      exact absurd hws (by decide)
  have hB : stripDotZeroEnd (pyStrip z) = pyStrip z := by
    rw [stripDotZeroEnd, if_neg (by simp [hn]), if_neg (by simp [h2])]
  show pyStrip (stripDotZeroEnd (rstripDots (pyStrip z))) = pyStrip z
  rw [hA, hB, pyStrip_idem]

/-- A value found by an association-list lookup is one of the list's values. -/
theorem lookup_mem_values {α β : Type} [BEq α] (k : α) (v : β) :
    ∀ ps : List (α × β), ps.lookup k = some v → v ∈ ps.map Prod.snd := by
  intro ps
  induction ps with
  | nil => intro h; simp [List.lookup] at h
  | cons p t ih =>
    intro h
    obtain ⟨pk, pv⟩ := p
    cases hk : (k == pk) with
    | true =>
      simp only [List.lookup, hk] at h
      injection h with h1
      rw [← h1]
      exact List.mem_cons_self _ _
    | false =>
      simp only [List.lookup, hk] at h
      exact List.mem_cons_of_mem _ (ih h)

/-- `upChar` introduces no character outside the uppercase table: a
character it does not change into a table value stays itself. -/
theorem upChar_fix (c d : Char) (hd : d ∉ upPairs.map Prod.snd) (h : upChar c = d) : c = d := by
  rw [upChar] at h
  cases hl : upPairs.lookup c with
  | none => rw [hl] at h; exact h
  | some v =>
    rw [hl] at h
    simp at h
    exact absurd (h ▸ lookup_mem_values c v upPairs hl) hd

/-- The `.0`-removal step keeps only characters of the input. -/
theorem mem_stripDotZeroEnd (s : Str) (c : Char) (h : c ∈ stripDotZeroEnd s) : c ∈ s := by
  rw [stripDotZeroEnd] at h
  by_cases h1 : esSufijo ['.', '0', '\n'] s = true
  · rw [if_pos (by simp [h1])] at h
    obtain ⟨t, ht⟩ := esSufijo_exists _ s h1
    subst ht
    have hd : (t ++ ['.', '0', '\n']).dropLast.dropLast.dropLast = t := by
      have he : t ++ ['.', '0', '\n'] = ((t ++ ['.']) ++ ['0']) ++ ['\n'] := by simp
      rw [he, List.dropLast_concat, List.dropLast_concat, List.dropLast_concat]
    rw [hd] at h
    rcases List.mem_append.mp h with hl | hr
    · exact List.mem_append.mpr (Or.inl hl)
    · refine List.mem_append.mpr (Or.inr ?_)
      simp at hr
      simp [hr]
  · rw [if_neg (by simp [Bool.not_eq_true] at h1 ⊢; exact h1)] at h
    by_cases h2 : esSufijo ['.', '0'] s = true
    · rw [if_pos (by simp [h2])] at h
      obtain ⟨t, ht⟩ := esSufijo_exists _ s h2
      subst ht
      have hd : (t ++ ['.', '0']).dropLast.dropLast = t := by
        have he : t ++ ['.', '0'] = (t ++ ['.']) ++ ['0'] := by simp
        rw [he, List.dropLast_concat, List.dropLast_concat]
      rw [hd] at h
      exact List.mem_append.mpr (Or.inl h)
    · rwa [if_neg (by simp [Bool.not_eq_true] at h2 ⊢; exact h2)] at h

/-- Folio cleanup keeps only characters of the input. -/
theorem mem_limpiar_folio (s : Str) (c : Char) (h : c ∈ limpiar_folio s) : c ∈ s :=
  mem_rstripBy isDot s c (mem_stripDotZeroEnd (rstripDots s) c (mem_pyStrip _ c h))

/-- A character absent from a string stays absent after folio cleanup. -/
theorem tiene_limpiar_false (c : Char) (s : Str) (h : tiene c s = false) :
    tiene c (limpiar_folio s) = false := by
  cases hv : tiene c (limpiar_folio s) with
  | false => rfl
  | true =>
    exfalso
    rw [tiene, List.any_eq_true] at hv
    obtain ⟨x, hx, hxe⟩ := hv
    have hxs : x ∈ s := mem_limpiar_folio s x hx
    have : tiene c s = true := by
      rw [tiene, List.any_eq_true]
      exact ⟨x, hxs, hxe⟩
    rw [h] at this
    exact Bool.false_ne_true this

/-- The shape of a successful base-pipeline run: the returned table is the
valid-reference rows, hyphen-free, cleaned, renamed and filtered. -/
theorem saesa_like_ok_shape (df : List RawRow) (rows : List CanRow)
    (h : construir_base_saesa_like_sin_mapping df = .ok rows) :
    rows = (((((df.filter mask_ref_valida).filter refSinGuion).map limpiaRefFila).map
      filaACanonica).filter filaSalidaValida) := by
  rw [construir_base_saesa_like_sin_mapping] at h
  split at h
  · simp at h
  · split at h
    · simp at h
    · split at h
      · simp at h
      · injection h with h4
        exact h4.symm

/-- The shape of a successful SAESA run. -/
theorem saesa_ok_shape (df : List RawRow) (rows : List CanRow)
    (h : construir_base_saesa df = .ok rows) :
    ∃ base, construir_base_saesa_like_sin_mapping df = .ok base ∧
      rows = base.filterMap (mapeaSociedad SAESA_SOCIEDAD_A_RUT) := by
  rw [construir_base_saesa] at h
  split at h
  · simp at h
  next base heq =>
    split at h
    · simp at h
    · injection h with h1
      exact ⟨base, heq, h1.symm⟩

/-- The shape of a successful INNOVA run. -/
theorem innova_ok_shape (df : List RawRow) (rows : List CanRow)
    (h : construir_base_innova df = .ok rows) :
    ∃ base, construir_base_saesa_like_sin_mapping (df.map preInnovaRef) = .ok base ∧
      rows = base.filterMap (mapeaSociedad INNOVA_SOCIEDAD_A_RUT) := by
  rw [construir_base_innova] at h
  split at h
  · simp at h
  next base heq =>
    split at h
    · simp at h
    · injection h with h1
      exact ⟨base, heq, h1.symm⟩

/-- The shape of a successful Parauco run. -/
theorem parauco_ok_shape (ncols : Nat) (rws : List (List Cell)) (rows : List CanRow)
    (h : construir_base_parauco ncols rws = .ok rows) :
    rows = ((rws.filter filaParaucoValida).map filaParaucoACanonica).filter
      filaParaucoSalidaValida := by
  rw [construir_base_parauco] at h
  split at h
  · simp at h
  · split at h
    · simp at h
    · split at h
      · simp at h
      · injection h with h3
        exact h3.symm

/-- What membership in a mapped entity row yields. -/
theorem mapeaSociedad_campos (t : List (Str × Str)) (c out : CanRow)
    (h : mapeaSociedad t c = some out) :
    out.rutEmisor = c.rutEmisor ∧ out.folio = c.folio ∧
      ∃ rut, t.lookup (pyUpper (pyStrip c.sociedad)) = some rut ∧
        out.sociedad = normalizar_rut (some rut) := by
  rw [mapeaSociedad] at h
  cases hl : t.lookup (pyUpper (pyStrip c.sociedad)) with
  | none => rw [hl] at h; simp at h
  | some rut =>
    rw [hl] at h
    injection h with h1
    rw [← h1]
    exact ⟨rfl, rfl, rut, rfl, rfl⟩

/-- Unpacking the Bool row filter of the named pipeline. -/
theorem filaSalidaValida_spec (c : CanRow) (h : filaSalidaValida c = true) :
    (pyStrip c.rutEmisor).isEmpty = false ∧ (pyStrip c.folio).isEmpty = false := by
  rw [filaSalidaValida, Bool.and_eq_true, Bool.not_eq_true', Bool.not_eq_true'] at h
  exact h

/-- Unpacking the Bool row filter of the Parauco pipeline. -/
theorem filaParaucoSalidaValida_spec (c : CanRow) (h : filaParaucoSalidaValida c = true) :
    (pyStrip c.sociedad).isEmpty = false ∧ (pyStrip c.rutEmisor).isEmpty = false ∧
      (pyStrip c.folio).isEmpty = false := by
  rw [filaParaucoSalidaValida, Bool.and_eq_true, Bool.and_eq_true, Bool.not_eq_true',
    Bool.not_eq_true', Bool.not_eq_true'] at h
  exact ⟨h.1.1, h.1.2, h.2⟩

/-- A false Bool is not true. -/
theorem neVerdad {b : Bool} (h : b = false) : ¬(b = true) := by
  rw [h]
  exact Bool.false_ne_true

/-- `distintos` has the same members as its input. -/
theorem mem_distintos (x : Str) : ∀ l : List Str, x ∈ distintos l ↔ x ∈ l := by
  intro l
  induction l with
  | nil => simp [distintos]
  | cons a t ih =>
    rw [distintos]
    by_cases h : a ∈ t
    · rw [if_pos h, ih]
      constructor
      · exact fun hx => List.mem_cons_of_mem _ hx
      · intro hx
        rcases List.mem_cons.mp hx with hx | hx
        · rw [hx]; exact h
        · exact hx
    · rw [if_neg h]
      simp [List.mem_cons, ih]

/-- Sorted insertion has the inserted element and the old ones. -/
theorem mem_insertaOrdenado (x y : Str) :
    ∀ l : List Str, y ∈ insertaOrdenado x l ↔ y = x ∨ y ∈ l := by
  intro l
  induction l with
  | nil => simp [insertaOrdenado]
  | cons a t ih =>
    rw [insertaOrdenado]
    by_cases h : strLt x a = true
    · rw [if_pos h]
      simp [List.mem_cons]
    · rw [if_neg h]
      simp only [List.mem_cons, ih]
      tauto

/-- Sorting keeps exactly the members. -/
theorem mem_ordenaStrs (x : Str) (l : List Str) : x ∈ ordenaStrs l ↔ x ∈ l := by
  induction l with
  | nil => simp [ordenaStrs]
  | cons a t ih =>
    show x ∈ insertaOrdenado a (ordenaStrs t) ↔ x ∈ a :: t
    rw [mem_insertaOrdenado, ih, List.mem_cons]

/-- C2 is false as stated: the cleanup is not idempotent on every string.
On `1.0.0` one pass gives `1.0` and a second pass gives `1`. -/
theorem C2_limpieza_no_idempotente_cex :
    limpiar_folio (limpiar_folio (txt "1.0.0")) ≠ limpiar_folio (txt "1.0.0") := by decide

/-- C2 (amended): one cleanup pass removes the trailing periods, then
exactly one trailing `.0`, then surrounding whitespace; cleanup is
idempotent exactly on the inputs whose cleaned value does not itself end
in a period or in `.0` (an input with stacked `.0.0` tails loses one tail
per pass). -/
theorem C2_limpieza_folio :
    (∀ (y : Str) (k : Nat),
        limpiar_folio (y ++ ['.', '0'] ++ List.replicate k '.') = pyStrip y)
  ∧ (∀ x : Str, esSufijo ['.'] (limpiar_folio x) = false →
        esSufijo ['.', '0'] (limpiar_folio x) = false →
        limpiar_folio (limpiar_folio x) = limpiar_folio x) := by
  constructor
  · intro y k
    show pyStrip (stripDotZeroEnd (rstripDots (y ++ ['.', '0'] ++ List.replicate k '.')))
        = pyStrip y
    rw [rstripDots_dotzero_rep, stripDotZeroEnd_app_dotzero]
  · intro x h1 h2
    exact limpiar_pyStrip_fix (stripDotZeroEnd (rstripDots x)) h1 h2

/-- C2 witness: cleaning `123456.0..` yields `123456` in one pass, and a
cleanup whose result has no `.0` or `.` tail is a fixed point. -/
theorem C2_limpieza_folio_witness :
    limpiar_folio (txt "123456" ++ ['.', '0'] ++ List.replicate 2 '.') = pyStrip (txt "123456")
  ∧ limpiar_folio (limpiar_folio (txt "77.0")) = limpiar_folio (txt "77.0") :=
  ⟨C2_limpieza_folio.1 (txt "123456") 2,
   C2_limpieza_folio.2 (txt "77.0") (by decide) (by decide)⟩

/-- C3: the document-type classifier is total over strings and maps `FÑ`
to `33`, `FO` to `34`, `ZV` to `34` exactly on the three special issuer
identifiers and to `33` on every other issuer, and passes any other code
through unchanged. -/
theorem C3_clasificador_tipo_documento :
    (∀ r : Str, transformar_tipo (txt "FÑ") r = txt "33")
  ∧ (∀ r : Str, transformar_tipo (txt "FO") r = txt "34")
  ∧ (∀ r : Str, r ∈ RUTS_ESPECIALES_ZV → transformar_tipo (txt "ZV") r = txt "34")
  ∧ (∀ r : Str, r ∉ RUTS_ESPECIALES_ZV → transformar_tipo (txt "ZV") r = txt "33")
  ∧ (∀ c r : Str, c ≠ txt "FÑ" → c ≠ txt "FO" → c ≠ txt "ZV" → transformar_tipo c r = c) := by
  refine ⟨?_, ?_, ?_, ?_, ?_⟩
  · intro r
    rw [transformar_tipo, if_pos rfl]
  · intro r
    rw [transformar_tipo, if_neg (by decide), if_pos rfl]
  · intro r h
    rw [transformar_tipo, if_neg (by decide), if_neg (by decide), if_pos rfl, if_pos h]
  · intro r h
    rw [transformar_tipo, if_neg (by decide), if_neg (by decide), if_pos rfl, if_neg h]
  · intro c r h1 h2 h3
    rw [transformar_tipo, if_neg h1, if_neg h2, if_neg h3]

/-- C3 witness: the classifier on the spec's example inputs. -/
theorem C3_clasificador_tipo_documento_witness :
    transformar_tipo (txt "ZV") (txt "60503000-9") = txt "34"
  ∧ transformar_tipo (txt "ZV") (txt "12345678-9") = txt "33"
  ∧ transformar_tipo (txt "XYZ") (txt "1") = txt "XYZ" :=
  ⟨C3_clasificador_tipo_documento.2.2.1 (txt "60503000-9") (by decide),
   C3_clasificador_tipo_documento.2.2.2.1 (txt "12345678-9") (by decide),
   C3_clasificador_tipo_documento.2.2.2.2 (txt "XYZ") (txt "1")
     (by decide) (by decide) (by decide)⟩

/-- C4: amount normalization is total and non-negative; thousands-separator
periods are removed and the sign is dropped (`1.234.567` to 1234567,
`-500` to 500); an unparseable value yields 0 instead of an error. -/
theorem C4_monto_entero_no_negativo :
    (∀ s : Str, 0 ≤ monto_a_entero s)
  ∧ (∀ s : Str, parseNumero (normalizar_monto s) = none → monto_a_entero s = 0)
  ∧ monto_a_entero (txt "1.234.567") = 1234567
  ∧ monto_a_entero (txt "-500") = 500
  ∧ monto_a_entero (txt "sin numero") = 0 := by
  refine ⟨?_, ?_, by decide, by decide, by decide⟩
  · intro s
    rw [monto_a_entero]
    cases h : parseNumero (normalizar_monto s) with
    | none => exact le_refl 0
    | some q => exact Int.floor_nonneg.mpr (abs_nonneg q)
  · intro s h
    rw [monto_a_entero, h]

/-- C4 witness: a concrete unparseable amount yields 0. -/
theorem C4_monto_entero_no_negativo_witness :
    0 ≤ monto_a_entero (txt "garbage") ∧ monto_a_entero (txt "garbage") = 0 :=
  ⟨C4_monto_entero_no_negativo.1 (txt "garbage"),
   C4_monto_entero_no_negativo.2.1 (txt "garbage") (by decide)⟩

/-- C9 is false as stated: the identifier normalization removes only the
space character, not every whitespace character, so an internal tab
survives where the claim requires it removed. -/
theorem C9_normalizar_rut_cex :
    normalizar_rut (some (txt "76\t939541-5")) ≠ txt "76939541-5" := by decide

/-- C9 (amended): identifier normalization casts to string, strips
surrounding whitespace, removes every period and every internal space
character (other internal whitespace, such as a tab, is preserved), and
uppercases; the three textual variants all map to `76939541-5`, and no
period or space character ever survives. -/
theorem C9_normalizar_rut :
    normalizar_rut (some (txt "76.939.541-5")) = txt "76939541-5"
  ∧ normalizar_rut (some (txt "76939541-5")) = txt "76939541-5"
  ∧ normalizar_rut (some (txt " 76939541-5 ")) = txt "76939541-5"
  ∧ (∀ v : Str, tiene '.' (normalizar_rut (some v)) = false
      ∧ tiene ' ' (normalizar_rut (some v)) = false) := by
  refine ⟨by decide, by decide, by decide, ?_⟩
  intro v
  constructor
  · cases hv : tiene '.' (normalizar_rut (some v)) with
    | false => rfl
    | true =>
      exfalso
      rw [tiene, List.any_eq_true] at hv
      obtain ⟨x, hx, hxe⟩ := hv
      have hxd : x = '.' := beq_iff_eq.mp hxe
      subst hxd
      rw [normalizar_rut, pyUpper, List.mem_map] at hx
      obtain ⟨c, hc, hce⟩ := hx
      have hcd : c = '.' := upChar_fix c '.' (by decide) hce
      subst hcd
      rw [List.mem_filter] at hc
      obtain ⟨hc1, _⟩ := hc
      rw [List.mem_filter] at hc1
      obtain ⟨_, hc2⟩ := hc1
      simp at hc2
  · cases hv : tiene ' ' (normalizar_rut (some v)) with
    | false => rfl
    | true =>
      exfalso
      rw [tiene, List.any_eq_true] at hv
      obtain ⟨x, hx, hxe⟩ := hv
      have hxd : x = ' ' := beq_iff_eq.mp hxe
      subst hxd
      rw [normalizar_rut, pyUpper, List.mem_map] at hx
      obtain ⟨c, hc, hce⟩ := hx
      have hcd : c = ' ' := upChar_fix c ' ' (by decide) hce
      subst hcd
      rw [List.mem_filter] at hc
      obtain ⟨_, hc2⟩ := hc
      simp at hc2

/-- C10: amount normalization removes every period, not only
thousands-separator periods: a period-as-decimal-separator amount is
concatenated, and a comma-free input never keeps a period. -/
theorem C10_monto_remueve_puntos :
    monto_a_entero (txt "12.5") = 125
  ∧ monto_a_entero (txt "1234.56") = 123456
  ∧ (∀ s : Str, tiene ',' s = false → tiene '.' (normalizar_monto s) = false) := by
  refine ⟨by decide, by decide, ?_⟩
  intro s h
  cases hv : tiene '.' (normalizar_monto s) with
  | false => rfl
  | true =>
    exfalso
    rw [tiene, List.any_eq_true] at hv
    obtain ⟨x, hx, hxe⟩ := hv
    have hxd : x = '.' := beq_iff_eq.mp hxe
    subst hxd
    have hx2 : ('.' : Char) ∈ (s.filter (fun c => !(c == '.'))).map
        (fun c => if c == ',' then '.' else c) := mem_pyStrip _ '.' hx
    rw [List.mem_map] at hx2
    obtain ⟨c, hc, hce⟩ := hx2
    rw [List.mem_filter] at hc
    obtain ⟨hcs, hcd⟩ := hc
    by_cases hcc : (c == ',') = true
    · have hcm : c = ',' := beq_iff_eq.mp hcc
      subst hcm
      have hcn : tiene ',' s = true := by
        rw [tiene, List.any_eq_true]
        exact ⟨',', hcs, by simp⟩
      rw [h] at hcn
      exact Bool.false_ne_true hcn
    · rw [if_neg hcc] at hce
      subst hce
      simp at hcd

/-- C10 witness: the decimal-separator example has no commas, and indeed
no period survives its normalization. -/
theorem C10_monto_remueve_puntos_witness :
    tiene '.' (normalizar_monto (txt "12.5")) = false :=
  C10_monto_remueve_puntos.2.2 (txt "12.5") (by decide)

/-- C1: every row of the table returned by any of the three feed pipelines
(SAESA, INNOVA with pre-processing, positional Parauco) has a non-blank
issuer identifier and a non-blank folio after trimming; offending rows are
filtered out before the table is returned. -/
theorem C1_salida_sin_campos_vacios :
    (∀ (df : List RawRow) (rows : List CanRow), construir_base_saesa df = .ok rows →
        ∀ c ∈ rows, (pyStrip c.rutEmisor).isEmpty = false ∧ (pyStrip c.folio).isEmpty = false)
  ∧ (∀ (df : List RawRow) (rows : List CanRow), construir_base_innova df = .ok rows →
        ∀ c ∈ rows, (pyStrip c.rutEmisor).isEmpty = false ∧ (pyStrip c.folio).isEmpty = false)
  ∧ (∀ (n : Nat) (rs : List (List Cell)) (rows : List CanRow),
        construir_base_parauco n rs = .ok rows →
        ∀ c ∈ rows, (pyStrip c.rutEmisor).isEmpty = false ∧ (pyStrip c.folio).isEmpty = false) := by
  have hlike : ∀ (df : List RawRow) (rows : List CanRow),
      construir_base_saesa_like_sin_mapping df = .ok rows →
      ∀ c ∈ rows, (pyStrip c.rutEmisor).isEmpty = false ∧ (pyStrip c.folio).isEmpty = false := by
    intro df rows h c hc
    rw [saesa_like_ok_shape df rows h] at hc
    exact filaSalidaValida_spec c (List.mem_filter.mp hc).2
  refine ⟨?_, ?_, ?_⟩
  · intro df rows h c hc
    obtain ⟨base, hb, hr⟩ := saesa_ok_shape df rows h
    rw [hr, List.mem_filterMap] at hc
    obtain ⟨a, ha, hm⟩ := hc
    obtain ⟨hrut, hfol, _⟩ := mapeaSociedad_campos _ a c hm
    rw [hrut, hfol]
    exact hlike df base hb a ha
  · intro df rows h c hc
    obtain ⟨base, hb, hr⟩ := innova_ok_shape df rows h
    rw [hr, List.mem_filterMap] at hc
    obtain ⟨a, ha, hm⟩ := hc
    obtain ⟨hrut, hfol, _⟩ := mapeaSociedad_campos _ a c hm
    rw [hrut, hfol]
    exact hlike (df.map preInnovaRef) base hb a ha
  · intro n rs rows h c hc
    rw [parauco_ok_shape n rs rows h] at hc
    have hspec := filaParaucoSalidaValida_spec c (List.mem_filter.mp hc).2
    exact ⟨hspec.2.1, hspec.2.2⟩

/-- C1 witness: concrete successful runs of the three pipelines, with the
invariant evaluated on their output rows. -/
theorem C1_salida_sin_campos_vacios_witness :
    ((pyStrip filaSaesaDSalida.rutEmisor).isEmpty = false
      ∧ (pyStrip filaSaesaDSalida.folio).isEmpty = false)
  ∧ ((pyStrip filaInnovaPSalida.rutEmisor).isEmpty = false
      ∧ (pyStrip filaInnovaPSalida.folio).isEmpty = false)
  ∧ ((pyStrip salidaParaucoEj.rutEmisor).isEmpty = false
      ∧ (pyStrip salidaParaucoEj.folio).isEmpty = false) :=
  ⟨C1_salida_sin_campos_vacios.1 [filaSaesaD, filaSaesaX] [filaSaesaDSalida]
     (by decide) filaSaesaDSalida (by decide),
   C1_salida_sin_campos_vacios.2.1 [filaInnovaP] [filaInnovaPSalida]
     (by decide) filaInnovaPSalida (by decide),
   C1_salida_sin_campos_vacios.2.2 12 [filaParaucoEj] [salidaParaucoEj]
     (by decide) salidaParaucoEj (by decide)⟩

/-- C5: the named pipeline first drops rows with a missing, blank or
literal-nan reference and fails with the reference-checkpoint message when
that empties the table; it then drops rows whose reference has a hyphen
and fails with the distinct hyphen-checkpoint message when that empties
the table; surviving output folios never carry a hyphen, and the spec's
example batch keeps only the valid row. -/
theorem C5_filtros_de_referencia :
    (∀ df : List RawRow, (df.filter mask_ref_valida).isEmpty = true →
        construir_base_saesa_like_sin_mapping df = .error MSG_REF_INVALIDA)
  ∧ (∀ df : List RawRow, (df.filter mask_ref_valida).isEmpty = false →
        ((df.filter mask_ref_valida).filter refSinGuion).isEmpty = true →
        construir_base_saesa_like_sin_mapping df = .error MSG_REF_GUION)
  ∧ MSG_REF_INVALIDA ≠ MSG_REF_GUION
  ∧ (∀ (df : List RawRow) (rows : List CanRow),
        construir_base_saesa_like_sin_mapping df = .ok rows →
        ∀ c ∈ rows, tiene '-' c.folio = false)
  ∧ construir_base_saesa_like_sin_mapping [filaRefNan, filaRefGuion, filaSaesaD]
      = .ok [filaBaseD] := by
  refine ⟨?_, ?_, by decide, ?_, by decide⟩
  · intro df h
    rw [construir_base_saesa_like_sin_mapping, if_pos h]
  · intro df h1 h2
    have h2m : ((df.filter mask_ref_valida).filter refSinGuion).map limpiaRefFila = [] := by
      rw [List.isEmpty_iff.mp h2]
      rfl
    rw [construir_base_saesa_like_sin_mapping, if_neg (neVerdad h1),
      if_pos (by rw [h2m]; rfl)]
  · intro df rows h c hc
    rw [saesa_like_ok_shape df rows h] at hc
    have hc1 := (List.mem_filter.mp hc).1
    rw [List.mem_map] at hc1
    obtain ⟨r1, hr1, hfc⟩ := hc1
    rw [List.mem_map] at hr1
    obtain ⟨r0, hr0, hlr⟩ := hr1
    have hg : tiene '-' (cellStr r0.referencia) = false := by
      have hg0 : refSinGuion r0 = true := (List.mem_filter.mp hr0).2
      rw [refSinGuion, Bool.not_eq_true'] at hg0
      exact hg0
    have hfolio : c.folio = limpiar_folio (cellStr r0.referencia) := by
      rw [← hfc, ← hlr]
      rfl
    rw [hfolio]
    exact tiene_limpiar_false '-' (cellStr r0.referencia) hg

/-- C5 witness: a batch with only a missing reference fails at the
reference checkpoint; a batch whose only referenced row is hyphenated
fails at the hyphen checkpoint; the surviving folio of the example batch
has no hyphen. -/
theorem C5_filtros_de_referencia_witness :
    construir_base_saesa_like_sin_mapping [filaRefNan] = .error MSG_REF_INVALIDA
  ∧ construir_base_saesa_like_sin_mapping [filaRefGuion] = .error MSG_REF_GUION
  ∧ tiene '-' filaBaseD.folio = false :=
  ⟨C5_filtros_de_referencia.1 [filaRefNan] (by decide),
   C5_filtros_de_referencia.2.1 [filaRefGuion] (by decide) (by decide),
   C5_filtros_de_referencia.2.2.2.1 [filaRefNan, filaRefGuion, filaSaesaD] [filaBaseD]
     (by decide) filaBaseD (by decide)⟩

/-- C6: in the code-table feeds the entity value is stripped, uppercased
and looked up in the static letter-to-identity table; every returned row
carries a (normalized) value of that table, never a pass-through value;
rows with unknown codes are silently dropped, and when every row is
dropped the batch fails with the feed's descriptive message. -/
theorem C6_tabla_de_entidades :
    (∀ (df : List RawRow) (rows : List CanRow), construir_base_saesa df = .ok rows →
        ∀ c ∈ rows, c.sociedad ∈ SAESA_SOCIEDAD_A_RUT.map (fun p => normalizar_rut (some p.2)))
  ∧ (∀ (df : List RawRow) (rows : List CanRow), construir_base_innova df = .ok rows →
        ∀ c ∈ rows, c.sociedad ∈ INNOVA_SOCIEDAD_A_RUT.map (fun p => normalizar_rut (some p.2)))
  ∧ (∀ (df : List RawRow) (base : List CanRow),
        construir_base_saesa_like_sin_mapping df = .ok base →
        (∀ r ∈ base, SAESA_SOCIEDAD_A_RUT.lookup (pyUpper (pyStrip r.sociedad)) = none) →
        construir_base_saesa df = .error MSG_SAESA_VACIA)
  ∧ (∀ (df : List RawRow) (base : List CanRow),
        construir_base_saesa_like_sin_mapping (df.map preInnovaRef) = .ok base →
        (∀ r ∈ base, INNOVA_SOCIEDAD_A_RUT.lookup (pyUpper (pyStrip r.sociedad)) = none) →
        construir_base_innova df = .error MSG_INNOVA_VACIA)
  ∧ construir_base_saesa [filaSaesaD, filaSaesaX] = .ok [filaSaesaDSalida] := by
  refine ⟨?_, ?_, ?_, ?_, by decide⟩
  · intro df rows h c hc
    obtain ⟨base, hb, hr⟩ := saesa_ok_shape df rows h
    rw [hr, List.mem_filterMap] at hc
    obtain ⟨a, _, hm⟩ := hc
    obtain ⟨_, _, rut, hlook, hsoc⟩ := mapeaSociedad_campos _ a c hm
    have hv := lookup_mem_values _ rut _ hlook
    rw [List.mem_map] at hv
    obtain ⟨p, hp, hp2⟩ := hv
    rw [List.mem_map]
    exact ⟨p, hp, by rw [hp2, ← hsoc]⟩
  · intro df rows h c hc
    obtain ⟨base, hb, hr⟩ := innova_ok_shape df rows h
    rw [hr, List.mem_filterMap] at hc
    obtain ⟨a, _, hm⟩ := hc
    obtain ⟨_, _, rut, hlook, hsoc⟩ := mapeaSociedad_campos _ a c hm
    have hv := lookup_mem_values _ rut _ hlook
    rw [List.mem_map] at hv
    obtain ⟨p, hp, hp2⟩ := hv
    rw [List.mem_map]
    exact ⟨p, hp, by rw [hp2, ← hsoc]⟩
  · intro df base hb hnone
    have hnil : base.filterMap (mapeaSociedad SAESA_SOCIEDAD_A_RUT) = [] := by
      rw [List.filterMap_eq_nil_iff]
      intro a ha
      rw [mapeaSociedad, hnone a ha]
    simp only [construir_base_saesa, hb]
    rw [if_pos (by rw [hnil]; rfl)]
  · intro df base hb hnone
    have hnil : base.filterMap (mapeaSociedad INNOVA_SOCIEDAD_A_RUT) = [] := by
      rw [List.filterMap_eq_nil_iff]
      intro a ha
      rw [mapeaSociedad, hnone a ha]
    simp only [construir_base_innova, hb]
    rw [if_pos (by rw [hnil]; rfl)]

/-- C6 witness: the mapped outputs carry table identities; a batch whose
only codes are unknown fails with the feed's message. -/
theorem C6_tabla_de_entidades_witness :
    filaSaesaDSalida.sociedad ∈ SAESA_SOCIEDAD_A_RUT.map (fun p => normalizar_rut (some p.2))
  ∧ filaInnovaPSalida.sociedad ∈ INNOVA_SOCIEDAD_A_RUT.map (fun p => normalizar_rut (some p.2))
  ∧ construir_base_saesa [filaSaesaX] = .error MSG_SAESA_VACIA
  ∧ construir_base_innova [filaSaesaD] = .error MSG_INNOVA_VACIA :=
  ⟨C6_tabla_de_entidades.1 [filaSaesaD, filaSaesaX] [filaSaesaDSalida]
     (by decide) filaSaesaDSalida (by decide),
   C6_tabla_de_entidades.2.1 [filaInnovaP] [filaInnovaPSalida]
     (by decide) filaInnovaPSalida (by decide),
   C6_tabla_de_entidades.2.2.1 [filaSaesaX] [filaBaseX] (by decide) (by decide),
   C6_tabla_de_entidades.2.2.2.1 [filaSaesaD] [filaBaseD] (by decide) (by decide)⟩

/-- C7: the positional pipeline fails with the schema message on every
table with at most 11 columns, never emits that message once 12 columns
are present, and on a 12-column table reads amount from index 2, folio
from index 3, due date from index 4, issuer from index 6, output entity
from index 10 and the filter name from index 11 (the concrete run pins
each position). -/
theorem C7_parauco_esquema_posicional :
    (∀ (n : Nat) (rows : List (List Cell)), n ≤ 11 →
        construir_base_parauco n rows = .error MSG_PARAUCO_COLS)
  ∧ (∀ (n : Nat) (rows : List (List Cell)), 12 ≤ n →
        construir_base_parauco n rows ≠ .error MSG_PARAUCO_COLS)
  ∧ construir_base_parauco 12 [filaParaucoEj] = .ok [salidaParaucoEj] := by
  refine ⟨?_, ?_, by decide⟩
  · intro n rows h
    rw [construir_base_parauco, if_pos h]
  · intro n rows h
    rw [construir_base_parauco, if_neg (by omega)]
    by_cases h1 : (rows.filter filaParaucoValida).isEmpty = true
    · rw [if_pos h1]
      intro hc
      injection hc with he
      exact absurd he (by decide)
    · rw [if_neg h1]
      by_cases h2 : (((rows.filter filaParaucoValida).map filaParaucoACanonica).filter
          filaParaucoSalidaValida).isEmpty = true
      · rw [if_pos h2]
        intro hc
        injection hc with he
        exact absurd he (by decide)
      · rw [if_neg h2]
        intro hc
        exact Except.noConfusion hc

/-- C7 witness: a 10-column table fails with the schema error; a 12-column
table does not produce the schema error. -/
theorem C7_parauco_esquema_posicional_witness :
    construir_base_parauco 10 [filaParaucoEj] = .error MSG_PARAUCO_COLS
  ∧ construir_base_parauco 12 ([] : List (List Cell)) ≠ .error MSG_PARAUCO_COLS :=
  ⟨C7_parauco_esquema_posicional.1 10 [filaParaucoEj] (by decide),
   C7_parauco_esquema_posicional.2.1 12 [] (by decide)⟩

/-- C8: per-entity assembly partitions the canonical rows by entity: each
emitted group is non-empty and equals, in input order, the rows carrying
its key with the entity column dropped; every input row's entity has a
group; an empty table fails with the no-groups message; and the A,A,B
example yields group A with two rows in order and group B with one. -/
theorem C8_agrupacion_por_entidad :
    (∀ (base : List CanRow) (out : List (Str × List OutRow)),
        base_a_dict_por_sociedad base = .ok out →
        (∀ g ∈ out, g.2 ≠ []
            ∧ g.2 = (base.filter (fun c => c.sociedad == g.1)).map quitarSociedad)
        ∧ (∀ c ∈ base, ∃ g ∈ out, g.1 = c.sociedad))
  ∧ base_a_dict_por_sociedad [] = .error MSG_SIN_GRUPOS
  ∧ base_a_dict_por_sociedad [ejA1, ejA2, ejB]
      = .ok [(txt "A", [quitarSociedad ejA1, quitarSociedad ejA2]),
             (txt "B", [quitarSociedad ejB])] := by
  refine ⟨?_, by decide, by decide⟩
  intro base out h
  have hout : out = gruposSociedad base := by
    rw [base_a_dict_por_sociedad] at h
    split at h
    · simp at h
    · injection h with h1
      exact h1.symm
  subst hout
  constructor
  · intro g hg
    rw [gruposSociedad, List.mem_filterMap] at hg
    obtain ⟨k, hk, hik⟩ := hg
    by_cases he : (base.filter (fun c => c.sociedad == k)).isEmpty = true
    · rw [if_pos he] at hik
      simp at hik
    · rw [if_neg he] at hik
      injection hik with h2
      rw [← h2]
      constructor
      · intro hnil
        rw [List.map_eq_nil_iff] at hnil
        rw [hnil] at he
        exact he rfl
      · rfl
  · intro c hc
    have hkey : c.sociedad ∈ clavesSociedad base := by
      rw [clavesSociedad, mem_ordenaStrs, mem_distintos, List.mem_map]
      exact ⟨c, hc, rfl⟩
    have hmem : c ∈ base.filter (fun x => x.sociedad == c.sociedad) := by
      rw [List.mem_filter]
      exact ⟨hc, by simp⟩
    have hne : (base.filter (fun x => x.sociedad == c.sociedad)).isEmpty = false := by
      cases hfe : base.filter (fun x => x.sociedad == c.sociedad) with
      | nil => rw [hfe] at hmem; simp at hmem
      | cons a t => rfl
    refine ⟨(c.sociedad,
      (base.filter (fun x => x.sociedad == c.sociedad)).map quitarSociedad), ?_, rfl⟩
    rw [gruposSociedad, List.mem_filterMap]
    refine ⟨c.sociedad, hkey, ?_⟩
    rw [if_neg (neVerdad hne)]

/-- C8 witness: in the A,A,B example, group A is exactly the two A-rows,
in input order, with the entity field dropped. -/
theorem C8_agrupacion_por_entidad_witness :
    ((txt "A", [quitarSociedad ejA1, quitarSociedad ejA2]) : Str × List OutRow).2
      = ([ejA1, ejA2, ejB].filter (fun c => c.sociedad
          == ((txt "A", [quitarSociedad ejA1, quitarSociedad ejA2]) : Str × List OutRow).1)).map
        quitarSociedad :=
  ((C8_agrupacion_por_entidad.1 [ejA1, ejA2, ejB]
      [(txt "A", [quitarSociedad ejA1, quitarSociedad ejA2]), (txt "B", [quitarSociedad ejB])]
      (by decide)).1 _ (by decide)).2
